import Mathlib

/-!
Verification development for the transcript segmentation and clip-extraction
pipeline of the learn-italian repository.

The TypeScript sources are shallowly embedded:
* JavaScript strings are Lean `String`s; the regex operations the code uses
  (`replace(/\s+/g,' ')`, `split(/[.!?]+/)`, `split(/\n\s*\n/)`, tag and
  bracket stripping, time-stamp matching) are implemented character by
  character with the same match semantics (leftmost match, greedy/lazy as in
  the source, `.` not crossing a line terminator).
* JavaScript numbers are exact rationals (`ℚ`).  All comparisons the claims
  depend on (score thresholds built from 0.1/0.2/0.3 deductions against 0.8,
  duration bounds, time arithmetic) give the same answers as IEEE doubles at
  every point used in a theorem below.
* `async` collaborator calls (YouTube metadata/captions, translation, the
  yt-dlp extraction tool, directory creation) are parameters: a stub value or
  a `String → Except String _` / success predicate supplied by the caller.
* The unbounded `while` loop of `createSegments` and the recursion of
  `processSegment` are written with an explicit budget that is large enough
  for every terminating run of the source (the loop advances by at least
  `min (segmentDuration - overlap) segmentDuration` per iteration).
-/

/-! ## JavaScript string primitives -/

/-- ASCII white-space characters of the JS `\s` class (the Unicode space
characters of `\s` are not used by any input considered here). -/
def isJsWs (c : Char) : Bool :=
  c = ' ' || c = '\t' || c = '\n' || c = '\r' || c = '\x0b' || c = '\x0c'

/-- Sentence punctuation class `[.!?]` used by the splitting heuristics. -/
def isSentencePunct (c : Char) : Bool :=
  c = '.' || c = '!' || c = '?'

/-- `String.prototype.trim`: drop leading and trailing white space. -/
def jsTrim (s : String) : String :=
  (((s.toList.dropWhile isJsWs).reverse.dropWhile isJsWs).reverse).asString

/-- Core of `replace(/\s+/g, ' ')`: every maximal white-space run becomes one
space.  The flag records whether the previous character was white space. -/
def collapseWsAux : List Char → Bool → List Char
  | [], _ => []
  | c :: rest, prevWs =>
    if isJsWs c then
      if prevWs then collapseWsAux rest true else ' ' :: collapseWsAux rest true
    else c :: collapseWsAux rest false

/-- The ubiquitous `.replace(/\s+/g, ' ').trim()` of the source. -/
def jsNormalize (s : String) : String :=
  jsTrim (collapseWsAux s.toList false).asString

/-- `split` on a character-class-plus regex (`/\s+/`, `/[.!?]+/`): maximal
separator runs split the string, leading/trailing runs produce empty pieces,
`""` splits to `[""]`.  The `Option` state is `none` while inside a separator
run (current piece already emitted). -/
def splitRunsGo (p : Char → Bool) : List Char → Option (List Char) → List (List Char)
  | [], none => [[]]
  | [], some cur => [cur.reverse]
  | c :: rest, none =>
    if p c then splitRunsGo p rest none else splitRunsGo p rest (some [c])
  | c :: rest, some cur =>
    if p c then cur.reverse :: splitRunsGo p rest none
    else splitRunsGo p rest (some (c :: cur))

/-- `str.split(/\s+/)`. -/
def jsSplitWs (s : String) : List String :=
  (splitRunsGo isJsWs s.toList (some [])).map List.asString

/-- `str.split(/[.!?]+/)`. -/
def jsSplitSentences (s : String) : List String :=
  (splitRunsGo isSentencePunct s.toList (some [])).map List.asString

/-- `split` on a single-character class without `+` (`/[,.]/`): every
separator character splits, empty pieces are kept. -/
def splitEveryGo (p : Char → Bool) : List Char → List Char → List (List Char)
  | [], cur => [cur.reverse]
  | c :: rest, cur =>
    if p c then cur.reverse :: splitEveryGo p rest [] else splitEveryGo p rest (c :: cur)

/-- `str.split(/[,.]/)`. -/
def jsSplitCommaDot (s : String) : List String :=
  (splitEveryGo (fun c => c = ',' || c = '.') s.toList []).map List.asString

/-- `str.split(sep)` for a plain-string separator: split at every
non-overlapping leftmost occurrence, keeping empty pieces.  Budget: each step
consumes at least one character (all separators used are non-empty). -/
def jsSplitOnGo (sep : List Char) : Nat → List Char → List Char → List (List Char)
  | _, [], cur => [cur.reverse]
  | 0, cs, cur => [cur.reverse ++ cs]
  | fuel + 1, c :: rest, cur =>
    if sep.isPrefixOf (c :: rest) then
      cur.reverse :: jsSplitOnGo sep fuel ((c :: rest).drop sep.length) []
    else jsSplitOnGo sep fuel rest (c :: cur)

def jsSplitOn (s sep : String) : List String :=
  (jsSplitOnGo sep.toList s.toList.length s.toList []).map List.asString

/-- `String.prototype.includes`. -/
def jsIncludesGo (pat : List Char) : List Char → Bool
  | [] => pat.isPrefixOf []
  | c :: rest => pat.isPrefixOf (c :: rest) || jsIncludesGo pat rest

def jsIncludes (s pat : String) : Bool :=
  jsIncludesGo pat.toList s.toList

/-- `str.replace(pat, repl)` with a plain-string pattern: only the first
occurrence is replaced. -/
def replaceFirstGo (pat repl : List Char) : List Char → List Char
  | [] => []
  | c :: rest =>
    if pat.isPrefixOf (c :: rest) then repl ++ (c :: rest).drop pat.length
    else c :: replaceFirstGo pat repl rest

def jsReplaceFirst (s pat repl : String) : String :=
  (replaceFirstGo pat.toList repl.toList s.toList).asString

/-- `str.replace(/pat/g, repl)` for a plain-string pattern: all leftmost
non-overlapping occurrences.  The budget (`fuel`) starts at the string length,
which is enough because every step consumes at least one character (all
patterns used are non-empty). -/
def replaceAllGo (pat repl : List Char) : Nat → List Char → List Char
  | _, [] => []
  | 0, cs => cs
  | fuel + 1, c :: rest =>
    if pat.isPrefixOf (c :: rest) then
      repl ++ replaceAllGo pat repl fuel ((c :: rest).drop pat.length)
    else c :: replaceAllGo pat repl fuel rest

def jsReplaceAll (s pat repl : String) : String :=
  (replaceAllGo pat.toList repl.toList s.toList.length s.toList).asString

/-- `replace(/<[^>]*>/g, '')`.  A `<` opens a candidate match that succeeds at
the first following `>` (the run in between is dropped); if no `>` ever
follows, the buffered characters are kept verbatim, exactly as the JS regex
behaves.  The `Option` state buffers the characters seen since the pending
`<` (in reverse). -/
def removeTagsGo : List Char → Option (List Char) → List Char
  | [], none => []
  | [], some buf => buf.reverse
  | c :: rest, none =>
    if c = '<' then removeTagsGo rest (some ['<']) else c :: removeTagsGo rest none
  | c :: rest, some buf =>
    if c = '>' then removeTagsGo rest none else removeTagsGo rest (some (c :: buf))

def jsRemoveTags (s : String) : String :=
  (removeTagsGo s.toList none).asString

/-- `replace(/\[.*?\]/g, '')`.  Lazy match up to the first `]`; `.` does not
cross a line terminator, so a newline aborts the candidate match and the
buffered characters are kept (no other match can start inside the buffer: it
contains no `]` and ends at the same newline). -/
def removeBracketsGo : List Char → Option (List Char) → List Char
  | [], none => []
  | [], some buf => buf.reverse
  | c :: rest, none =>
    if c = '[' then removeBracketsGo rest (some ['[']) else c :: removeBracketsGo rest none
  | c :: rest, some buf =>
    if c = ']' then removeBracketsGo rest none
    else if c = '\n' || c = '\r' then buf.reverse ++ c :: removeBracketsGo rest none
    else removeBracketsGo rest (some (c :: buf))

def jsRemoveBrackets (s : String) : String :=
  (removeBracketsGo s.toList none).asString

/-! ## Kernel-computable rational arithmetic

The Batteries `Rat.add/sub/mul/div` are `@[irreducible]`, which blocks
`decide` on concrete runs of the model.  The wrappers below compute the same
values through the reducible `mkRat`; `qadd_eq`, `qsub_eq`, `qmul_eq` and
`qdiv_eq` (proved with the theorems at the end of the file) let the abstract
proofs reason with the ordinary field operations. -/

def qadd (a b : ℚ) : ℚ :=
  mkRat (a.num * b.den + b.num * a.den) (a.den * b.den)

def qneg (a : ℚ) : ℚ := -a

def qsub (a b : ℚ) : ℚ := qadd a (qneg b)

def qmul (a b : ℚ) : ℚ :=
  mkRat (a.num * b.num) (a.den * b.den)

def qdiv (a b : ℚ) : ℚ :=
  if b.num < 0 then mkRat (-(a.num * b.den)) (a.den * b.num.natAbs)
  else mkRat (a.num * b.den) (a.den * b.num.natAbs)

def qpow10Nat (n : Nat) : ℚ := mkRat ((10 : ℤ) ^ n) 1

def qpow10Int (e : ℤ) : ℚ :=
  if 0 ≤ e then mkRat ((10 : ℤ) ^ e.toNat) 1 else mkRat 1 ((10 : ℕ) ^ (-e).toNat)

/-! ## JavaScript numeric parsing (`parseInt`, `parseFloat`) -/

/-- Decimal digit list to integer. -/
def digitsVal (ds : List Char) : ℤ :=
  ds.foldl (fun a c => a * 10 + ((c.toNat - '0'.toNat : Nat) : ℤ)) 0

def isHexDigit (c : Char) : Bool :=
  c.isDigit || ('a' ≤ c && c ≤ 'f') || ('A' ≤ c && c ≤ 'F')

def hexDigitVal (c : Char) : Nat :=
  if c.isDigit then c.toNat - '0'.toNat
  else if 'a' ≤ c && c ≤ 'f' then c.toNat - 'a'.toNat + 10
  else c.toNat - 'A'.toNat + 10

def hexVal (ds : List Char) : ℤ :=
  ds.foldl (fun a c => a * 16 + (hexDigitVal c : ℤ)) 0

/-- `parseInt(s)` (no radix argument): leading white space, optional sign,
auto-detected `0x` hex prefix, otherwise a decimal digit prefix; `none` is
`NaN`. -/
def jsParseInt (s : String) : Option ℤ :=
  let cs := s.toList.dropWhile isJsWs
  let (sign, cs) : ℤ × List Char :=
    match cs with
    | '-' :: r => (-1, r)
    | '+' :: r => (1, r)
    | _ => (1, cs)
  let dec : List Char → Option ℤ := fun l =>
    let ds := l.takeWhile Char.isDigit
    if ds = [] then none else some (sign * digitsVal ds)
  match cs with
  | '0' :: c :: r =>
    if c = 'x' || c = 'X' then
      let hs := r.takeWhile isHexDigit
      if hs = [] then none else some (sign * hexVal hs)
    else dec cs
  | _ => dec cs

/-- `parseFloat(s)`: leading white space, optional sign, decimal mantissa with
optional fraction, optional well-formed exponent (a malformed exponent suffix
is ignored, as in JS); `none` is `NaN`.  The `Infinity` keyword is not
representable in `ℚ` and is mapped to `none`; no input considered by a
theorem below contains it. -/
def jsParseFloat (s : String) : Option ℚ :=
  let cs := s.toList.dropWhile isJsWs
  let (sign, cs) : ℚ × List Char :=
    match cs with
    | '-' :: r => (-1, r)
    | '+' :: r => (1, r)
    | _ => (1, cs)
  let intDs := cs.takeWhile Char.isDigit
  let rest1 := cs.drop intDs.length
  let (fracDs, rest2) : List Char × List Char :=
    match rest1 with
    | '.' :: r => (r.takeWhile Char.isDigit, r.drop (r.takeWhile Char.isDigit).length)
    | _ => ([], rest1)
  if intDs = [] ∧ fracDs = [] then none
  else
    let mantissa : ℚ :=
      qadd (digitsVal intDs : ℚ) (qdiv (digitsVal fracDs : ℚ) (qpow10Nat fracDs.length))
    let expo : ℤ :=
      match rest2 with
      | e :: r =>
        if e = 'e' || e = 'E' then
          let (esign, r') : ℤ × List Char :=
            match r with
            | '-' :: r' => (-1, r')
            | '+' :: r' => (1, r')
            | _ => (1, r)
          let eds := r'.takeWhile Char.isDigit
          if eds = [] then 0 else esign * digitsVal eds
        else 0
      | [] => 0
    some (qmul (qmul sign mantissa) (qpow10Int expo))

/-- JS `v || '0'` on a string: the empty string is falsy. -/
def jsOrZeroStr (v : String) : String :=
  if v = "" then "0" else v

/-! ## Data model (CaptionProcessor.ts / VideoService.ts interfaces) -/

/-- `CaptionData { start, end, text }`.  The source field `end` is a Lean
keyword and is embedded as `stop`. -/
structure CaptionData where
  start : ℚ
  stop : ℚ
  text : String
deriving DecidableEq

/-- `VideoSegment` (backend `CaptionProcessor.ts` / `VideoService.ts`; the
frontend copy makes `translation`/`audioUrl`/`videoUrl` optional, but every
operation modelled here treats `undefined` and `""` identically — both are
falsy — so a plain `String` with `""` for "absent" is a faithful embedding). -/
structure VideoSegment where
  id : String
  startTime : ℚ
  endTime : ℚ
  text : String
  translation : String
  audioUrl : String
  videoUrl : String
deriving DecidableEq

instance : Inhabited VideoSegment :=
  ⟨⟨"", 0, 0, "", "", "", ""⟩⟩

/-- `SegmentationOptions`.  `segmentDuration` and `overlap` are required by
the interface; the remaining fields are optional and resolved to the
destructuring defaults (3, 15, true, 20) inside `createSegments`.
`maxSegmentDuration` is destructured by the source but never used. -/
structure SegmentationOptions where
  segmentDuration : ℚ
  overlap : ℚ
  minSegmentDuration : Option ℚ
  maxSegmentDuration : Option ℚ
  preferSentenceBoundaries : Option Bool
  maxWordsPerSegment : Option Nat
deriving DecidableEq

namespace CaptionProcessor

/-- `CaptionProcessor.parseTimeToSeconds`.  Accepts `HH:MM:SS[,.]mmm` (split
on `:` then `[,.]`, `parseInt` components with `|| '0'` falsy defaults), a
`123.45s` float-with-suffix (first `s` removed, then `parseFloat`), or a bare
float.  `none` is `NaN`. -/
def parseTimeToSeconds (timeString : String) : Option ℚ :=
  if jsIncludes timeString ":" then
    let parts := jsSplitOn timeString ":"
    let hours := jsParseInt (jsOrZeroStr (parts.getD 0 ""))
    let minutes := jsParseInt (jsOrZeroStr (parts.getD 1 ""))
    let secondsParts :=
      if (parts.getD 2 "") = "" then ["0"] else jsSplitCommaDot (parts.getD 2 "")
    let seconds := jsParseInt (jsOrZeroStr (secondsParts.getD 0 ""))
    let milliseconds := jsParseInt (jsOrZeroStr (secondsParts.getD 1 ""))
    match hours, minutes, seconds, milliseconds with
    | some h, some m, some s, some ms =>
      some (qadd (qadd (qadd (qmul (h : ℚ) 3600) (qmul (m : ℚ) 60)) (s : ℚ))
        (qdiv (ms : ℚ) 1000))
    | _, _, _, _ => none
  else if jsIncludes timeString "s" then
    jsParseFloat (jsReplaceFirst timeString "s" "")
  else
    jsParseFloat timeString

/-- `CaptionProcessor.cleanText`: strip HTML tags, decode the five entity
escapes, drop `[bracketed]` annotations, collapse white space, trim.  The
replacements are applied in exactly the source order. -/
def cleanText (text : String) : String :=
  jsNormalize
    (jsRemoveBrackets
      (jsReplaceAll
        (jsReplaceAll
          (jsReplaceAll
            (jsReplaceAll
              (jsReplaceAll (jsRemoveTags text) "&amp;" "&")
              "&lt;" "<")
            "&gt;" ">")
          "&quot;" "\x22")
        "&#39;" "\x27"))

end CaptionProcessor

/-! ## Regex helpers for the SRT / TTML dialects -/

/-- Match `\d{2}:\d{2}:\d{2},\d{3}` at the head of the list; on success return
the 12 matched characters (the regex capture fed to `parseTimeToSeconds`) and
the remainder. -/
def tsPat : List Char → Option (String × List Char)
  | d1 :: d2 :: ':' :: d3 :: d4 :: ':' :: d5 :: d6 :: ',' :: d7 :: d8 :: d9 :: rest =>
    if [d1, d2, d3, d4, d5, d6, d7, d8, d9].all Char.isDigit then
      some ([d1, d2, ':', d3, d4, ':', d5, d6, ',', d7, d8, d9].asString, rest)
    else none
  | _ => none

/-- One attempt of the SRT time-range regex
`(\d{2}:\d{2}:\d{2},\d{3})\s*-->\s*(\d{2}:\d{2}:\d{2},\d{3})` anchored at the
head (the greedy `\s*` runs never need backtracking because `-` and digits are
not white space). -/
def srtMatchHere (cs : List Char) : Option (String × String) :=
  match tsPat cs with
  | none => none
  | some (t1, r1) =>
    let r2 := r1.dropWhile isJsWs
    if "-->".toList.isPrefixOf r2 then
      match tsPat ((r2.drop 3).dropWhile isJsWs) with
      | some (t2, _) => some (t1, t2)
      | none => none
    else none

/-- `line.match(regex)`: leftmost match of the SRT time-range regex. -/
def srtTimeMatch : List Char → Option (String × String)
  | [] => none
  | c :: rest =>
    match srtMatchHere (c :: rest) with
    | some r => some r
    | none => srtTimeMatch rest

/-- Index of the last `\n` in a list (0 when absent; callers establish
presence first). -/
def lastNewlineIdx (l : List Char) : Nat :=
  match l.reverse.findIdx? (· = '\n') with
  | some k => l.length - 1 - k
  | none => 0

/-- `content.split(/\n\s*\n/)`.  A match starts at a `\n` whose following
maximal white-space run contains another `\n`; the greedy `\s*` makes the
match end at the *last* `\n` of that run.  Budget: each step consumes at
least one character. -/
def splitBlankGo : Nat → List Char → List Char → List String
  | 0, cs, cur => [(cur.reverse ++ cs).asString]
  | _ + 1, [], cur => [cur.reverse.asString]
  | fuel + 1, '\n' :: rest, cur =>
    let run := rest.takeWhile isJsWs
    if run.contains '\n' then
      cur.reverse.asString :: splitBlankGo fuel (rest.drop (lastNewlineIdx run + 1)) []
    else splitBlankGo fuel rest ('\n' :: cur)
  | fuel + 1, c :: rest, cur => splitBlankGo fuel rest (c :: cur)

def jsSplitBlankLines (s : String) : List String :=
  splitBlankGo s.toList.length s.toList []

namespace CaptionProcessor

/-- `seek` part of `[^>]*tok` inside a TTML `<p` tag: scan forward for `tok`,
failing at `>` or end of input, and return the remainder after `tok`. -/
def seekTokenNoGt (tok : List Char) : List Char → Option (List Char)
  | [] => none
  | c :: rest =>
    if tok.isPrefixOf (c :: rest) then some ((c :: rest).drop tok.length)
    else if c = '>' then none
    else seekTokenNoGt tok rest

/-- `([^"]*)"`: capture up to the closing quote (fail when it is missing). -/
def captureToQuote (cs : List Char) : Option (String × List Char) :=
  let cap := cs.takeWhile (· ≠ '\x22')
  if cap.length < cs.length then some (cap.asString, cs.drop (cap.length + 1)) else none

/-- `[^>]*>`: skip to the closing `>` of the tag (fail when it is missing). -/
def skipToGt (cs : List Char) : Option (List Char) :=
  let pre := cs.takeWhile (· ≠ '>')
  if pre.length < cs.length then some (cs.drop (pre.length + 1)) else none

/-- `(.*?)<\/p>`: lazy body capture up to the first `</p>`; `.` does not
cross a line terminator, so a newline before `</p>` fails the match. -/
def bodyToClose : List Char → Option (List Char × List Char)
  | [] => none
  | c :: rest =>
    if "</p>".toList.isPrefixOf (c :: rest) then some ([], (c :: rest).drop 4)
    else if c = '\n' || c = '\r' then none
    else (bodyToClose rest).map (fun p => (c :: p.1, p.2))

/-- One attempt of
`<p[^>]*begin="([^"]*)"[^>]*end="([^"]*)"[^>]*>(.*?)<\/p>` anchored at the
head.  (On a pathological tag with several `begin=` attributes the greedy
`[^>]*` of the JS engine resolves to the last one while this scanner takes
the first; no input below has more than one.) -/
def ttmlMatchHere (cs : List Char) : Option (String × String × String × List Char) :=
  match cs with
  | '<' :: 'p' :: rest => do
    let r1 ← seekTokenNoGt "begin=\x22".toList rest
    let (beginStr, r2) ← captureToQuote r1
    let r3 ← seekTokenNoGt "end=\x22".toList r2
    let (endStr, r4) ← captureToQuote r3
    let r5 ← skipToGt r4
    let (body, r6) ← bodyToClose r5
    some (beginStr, endStr, body.asString, r6)
  | _ => none

/-- `CaptionProcessor.parseTTML` driver: global scan; a failed attempt
advances one character, a successful one continues after the match and emits
the entry when `text && start >= 0 && end > start` holds for the cleaned text
(`none` timestamps are `NaN`, for which both comparisons are false). -/
def ttmlScanGo : Nat → List Char → List CaptionData
  | 0, _ => []
  | _, [] => []
  | fuel + 1, c :: rest =>
    match ttmlMatchHere (c :: rest) with
    | some (b, e, bodyTxt, rest') =>
      let text := cleanText bodyTxt
      match parseTimeToSeconds b, parseTimeToSeconds e with
      | some s, some en =>
        if text ≠ "" ∧ 0 ≤ s ∧ s < en then ⟨s, en, text⟩ :: ttmlScanGo fuel rest'
        else ttmlScanGo fuel rest'
      | _, _ => ttmlScanGo fuel rest'
    | none => ttmlScanGo fuel rest

def parseTTML (ttmlContent : String) : List CaptionData :=
  ttmlScanGo ttmlContent.toList.length ttmlContent.toList

/-- One block of `CaptionProcessor.parseSRT`: at least three lines, a
time-range match on the second line, text = remaining lines joined and
trimmed (note: *not* `cleanText`ed), and the same emission guard as TTML. -/
def srtBlockEntry (block : String) : Option CaptionData :=
  let lines := jsSplitOn (jsTrim block) "\n"
  if 3 ≤ lines.length then
    match srtTimeMatch (lines.getD 1 "").toList with
    | some (t1, t2) =>
      match parseTimeToSeconds t1, parseTimeToSeconds t2 with
      | some s, some en =>
        let text := jsTrim (String.intercalate " " (lines.drop 2))
        if text ≠ "" ∧ 0 ≤ s ∧ s < en then some ⟨s, en, text⟩ else none
      | _, _ => none
    | none => none
  else none

def parseSRT (srtContent : String) : List CaptionData :=
  (jsSplitBlankLines srtContent).filterMap srtBlockEntry

/-- `CaptionProcessor.parsePlainText`: split on sentence punctuation, keep
non-blank sentences, 3-second slots from time zero. -/
def plainTextGo : List String → ℚ → List CaptionData
  | [], _ => []
  | sentence :: rest, currentTime =>
    let cleanSentence := jsTrim sentence
    if cleanSentence ≠ "" then
      ⟨currentTime, qadd currentTime 3, cleanSentence⟩ ::
        plainTextGo rest (qadd currentTime 3)
    else plainTextGo rest currentTime

def parsePlainText (text : String) : List CaptionData :=
  plainTextGo ((jsSplitSentences text).filter (fun s => jsTrim s != "")) 0

/-- `CaptionProcessor.parseCaptions`: content-sniffing dispatch. -/
def parseCaptions (captionText : String) : List CaptionData :=
  if jsIncludes captionText "<p" || jsIncludes captionText "ttml" then
    parseTTML captionText
  else if jsIncludes captionText "-->" then
    parseSRT captionText
  else
    parsePlainText captionText

/-! ## Segment building (`CaptionProcessor.createSegments`) -/

/-- Stable insertion preserving the relative order of equal keys, embedding
`[...captions].sort((a, b) => a.start - b.start)`. -/
def insertByStart (x : CaptionData) : List CaptionData → List CaptionData
  | [] => [x]
  | y :: l => if x.start ≤ y.start then x :: y :: l else y :: insertByStart x l

def sortByStart : List CaptionData → List CaptionData
  | [] => []
  | x :: l => insertByStart x (sortByStart l)

/-- The sentence-accumulation loop of step (d): greedily take whole trimmed
sentences while the running word count stays within the limit, joining with
`'. '`; stop at the first sentence that does not fit or is blank. -/
def takeSentences (maxWords : Nat) : List String → String → Nat → String
  | [], text, _ => text
  | sentence :: rest, text, words =>
    let tr := jsTrim sentence
    let sentenceWords := (jsSplitWs tr).length
    if words + sentenceWords ≤ maxWords ∧ tr ≠ "" then
      takeSentences maxWords rest (if text = "" then tr else text ++ ". " ++ tr)
        (words + sentenceWords)
    else text

/-- Combined text of one window: join overlapping captions, collapse white
space; when over the word limit and sentence boundaries are preferred, try
the sentence-prefix replacement (kept only when non-empty). -/
def segmentText (maxWords : Nat) (preferSB : Bool) (caps : List CaptionData) : String :=
  let combinedText := jsNormalize (String.intercalate " " (caps.map (·.text)))
  let wordCount := (jsSplitWs combinedText).length
  if maxWords < wordCount then
    if preferSB then
      let sentences := jsSplitSentences combinedText
      if 1 < sentences.length then
        let text := takeSentences maxWords sentences "" 0
        if text ≠ "" then text else combinedText
      else combinedText
    else combinedText
  else combinedText

/-- The `while (currentTime < maxEnd)` loop of `createSegments`, with an
explicit budget.  Each iteration filters the overlapping captions
(`start < segmentEnd && end > currentTime`), emits a segment when the clipped
bounds meet the duration floor, and advances by `segmentDuration - overlap`
(or by `segmentDuration` when the window is empty). -/
def buildLoop (sorted : List CaptionData) (maxEnd dur ovl minDur : ℚ)
    (maxWords : Nat) (preferSB : Bool) : Nat → ℚ → Nat → List VideoSegment
  | 0, _, _ => []
  | fuel + 1, currentTime, segmentId =>
    if currentTime < maxEnd then
      let segmentEnd := min (qadd currentTime dur) maxEnd
      match sorted.filter (fun c => decide (c.start < segmentEnd) && decide (currentTime < c.stop)) with
      | [] => buildLoop sorted maxEnd dur ovl minDur maxWords preferSB fuel (qadd currentTime dur) segmentId
      | first :: restCaps =>
        let combinedText := segmentText maxWords preferSB (first :: restCaps)
        let actualStart := max currentTime first.start
        let actualEnd := min segmentEnd ((first :: restCaps).getLast (List.cons_ne_nil _ _)).stop
        if minDur ≤ qsub actualEnd actualStart then
          ⟨toString segmentId, actualStart, actualEnd, combinedText, "", "", ""⟩ ::
            buildLoop sorted maxEnd dur ovl minDur maxWords preferSB fuel
              (qsub (qadd currentTime dur) ovl) (segmentId + 1)
        else
          buildLoop sorted maxEnd dur ovl minDur maxWords preferSB fuel
            (qsub (qadd currentTime dur) ovl) segmentId
    else []

/-- Budget sufficient for every terminating run: the loop advances by at
least `min (dur - ovl) dur` per iteration, so `maxEnd / minStep`, rounded up
generously, bounds the iteration count.  When `minStep ≤ 0` the source loop
would not terminate; the model then runs zero iterations. -/
def loopFuel (maxEnd dur ovl : ℚ) : Nat :=
  let minStep := min (qsub dur ovl) dur
  if 0 < minStep then (qdiv maxEnd minStep).num.toNat / (qdiv maxEnd minStep).den + 2 else 0

/-- `CaptionProcessor.createSegments`. -/
def createSegments (captions : List CaptionData) (options : SegmentationOptions) : List VideoSegment :=
  match captions with
  | [] => []
  | c :: cr =>
    let minDur := options.minSegmentDuration.getD 3
    let preferSB := options.preferSentenceBoundaries.getD true
    let maxWords := options.maxWordsPerSegment.getD 20
    let sorted := sortByStart (c :: cr)
    let maxEnd := cr.foldl (fun m x => max m x.stop) c.stop
    buildLoop sorted maxEnd options.segmentDuration options.overlap minDur maxWords preferSB
      (loopFuel maxEnd options.segmentDuration options.overlap) 0 1

/-- `CaptionProcessor.mergeAdjacentSegments` inner pass (identical code also
exists as `mergeAdjacentSegments` in the frontend utility module): extend the
accumulator while the gap to the next segment is at most 2 seconds, otherwise
flush it. -/
def mergeLoop : VideoSegment → List VideoSegment → List VideoSegment
  | current, [] => [current]
  | current, next :: rest =>
    if qsub next.startTime current.endTime ≤ 2 then
      mergeLoop
        { current with
          endTime := next.endTime
          text := jsNormalize (current.text ++ " " ++ next.text) } rest
    else current :: mergeLoop next rest

/-- `CaptionProcessor.mergeAdjacentSegments` (for a list of length ≤ 1 the
inner pass returns the list unchanged, as the source's early return does). -/
def mergeAdjacentSegments : List VideoSegment → List VideoSegment
  | [] => []
  | s :: rest => mergeLoop s rest

end CaptionProcessor

/-! ## Segment quality (frontend utility module) -/

/-- `/[{}[\]()<>]/.test(text)`. -/
def hasFormattingChar (s : String) : Bool :=
  s.toList.any (fun c =>
    c = '{' || c = '}' || c = '[' || c = ']' || c = '(' || c = ')' || c = '<' || c = '>')

/-- The frontend `cleanText`: strip HTML tags and `[bracketed]` annotations,
collapse white space, trim (no entity decoding, unlike the backend
`CaptionProcessor.cleanText`). -/
def cleanText (text : String) : String :=
  jsNormalize (jsRemoveBrackets (jsRemoveTags text))

structure SegmentQuality where
  score : ℚ
  issues : List String
  suggestions : List String
deriving DecidableEq

/-- `assessSegmentQuality`: cumulative deductions from 1.0 with floor 0, and
the corresponding issue/suggestion lists, in the source's order.  The
sequential `score -= d` float updates are embedded as one exact rational
subtraction; every threshold comparison made by a theorem below agrees with
the IEEE-double computation. -/
def assessSegmentQuality (segment : VideoSegment) : SegmentQuality :=
  let duration := qsub segment.endTime segment.startTime
  let durPart : List String × List String × ℚ :=
    if duration < 3 then (["Segment too short"], [], mkRat 1 5)
    else if 15 < duration then
      (["Segment too long"], ["Consider splitting into smaller segments"], mkRat 1 10)
    else ([], [], 0)
  let wordCount := (jsSplitWs segment.text).length
  let wcPart : List String × List String × ℚ :=
    if wordCount < 3 then (["Text too short"], [], mkRat 3 10)
    else if 25 < wordCount then
      (["Text too long"], ["Consider splitting at sentence boundaries"], mkRat 1 10)
    else ([], [], 0)
  let trPart : List String × List String × ℚ :=
    if segment.translation = "" then
      (["Missing translation"], ["Add English translation"], mkRat 1 5)
    else ([], [], 0)
  let fmtPart : List String × List String × ℚ :=
    if hasFormattingChar segment.text then
      (["Contains formatting characters"], ["Clean up text formatting"], mkRat 1 10)
    else ([], [], 0)
  { score := max 0 (qsub (qsub (qsub (qsub 1 durPart.2.2) wcPart.2.2) trPart.2.2) fmtPart.2.2)
    issues := durPart.1 ++ wcPart.1 ++ trPart.1 ++ fmtPart.1
    suggestions := durPart.2.1 ++ wcPart.2.1 ++ trPart.2.1 ++ fmtPart.2.1 }

/-- One element of `optimizeSegments`: segments scoring at least 0.8 pass
through; otherwise the text is cleaned when the formatting issue was
reported and a missing translation is replaced by the placeholder. -/
def optimizeSegment (segment : VideoSegment) : VideoSegment :=
  let quality := assessSegmentQuality segment
  if mkRat 4 5 ≤ quality.score then segment
  else
    let improved :=
      if "Contains formatting characters" ∈ quality.issues then
        { segment with text := cleanText segment.text }
      else segment
    if "Missing translation" ∈ quality.issues then
      { improved with translation := "[Translation needed]" }
    else improved

/-- `optimizeSegments = segments.map(...)`. -/
def optimizeSegments (segments : List VideoSegment) : List VideoSegment :=
  segments.map optimizeSegment

/-- The identity-giving fields of a segment (everything `optimizeSegments`
may not touch). -/
def frameOf (s : VideoSegment) : String × ℚ × ℚ × String × String :=
  (s.id, s.startTime, s.endTime, s.audioUrl, s.videoUrl)

/-! ## Extraction orchestrator (`VideoProcessingService`) -/

inductive JobStatus where
  | pending
  | processing
  | completed
  | failed
deriving DecidableEq

/-- `ProcessingProgress`.  `Date` timestamps are abstract ticks (`Nat`). -/
structure ProcessingProgress where
  videoId : String
  status : JobStatus
  progress : ℤ
  currentSegment : Option Nat
  totalSegments : Option Nat
  error : Option String
  startTime : Option Nat
  endTime : Option Nat
deriving DecidableEq

/-- The in-memory progress map, in JS `Map` iteration (= insertion) order. -/
abbrev ProgressStore := List (String × ProcessingProgress)

/-- `Math.round` for the non-negative percentages used here. -/
def jsRound (q : ℚ) : ℤ :=
  (qadd q (mkRat 1 2)).floor

namespace VideoProcessingService

/-- `Map.set`: overwrite in place when the key exists (keeping its insertion
position), otherwise append. -/
def mapSet (m : ProgressStore) (k : String) (v : ProcessingProgress) : ProgressStore :=
  if m.any (fun kv => kv.1 == k) then
    m.map (fun kv => if kv.1 == k then (k, v) else kv)
  else m ++ [(k, v)]

/-- `updateProgress`: merge the partial update into the current record, if
the key is present.  The update function plays the role of the
`{ ...current, ...updates }` spread. -/
def updateProgress (m : ProgressStore) (progressId : String)
    (updates : ProcessingProgress → ProcessingProgress) : ProgressStore :=
  match m.find? (fun kv => kv.1 == progressId) with
  | some kv => mapSet m progressId (updates kv.2)
  | none => m

/-- `getProgress`: iterate the map in insertion order and return the first
entry whose `videoId` matches. -/
def getProgress (m : ProgressStore) (videoId : String) : Option ProcessingProgress :=
  (m.find? (fun kv => kv.2.videoId == videoId)).map (fun kv => kv.2)

/-- Outcome of `processSegment` for one segment: how many times the external
tool was invoked, the back-off delays (ms) slept between attempts, and
whether the segment eventually succeeded. -/
structure ExtractionAttempts where
  attempts : Nat
  delaysMs : List Nat
  ok : Bool
deriving DecidableEq

/-- `processSegment(videoId, segment, retryCount)` with the extraction tool
abstracted to a per-attempt success predicate.  One invocation attempt; on
failure, while `retryCount < maxRetries (= 3)`, sleep `2000 * (retryCount+1)`
ms and recurse with `retryCount + 1`; otherwise rethrow.  The structural
budget `4 - retryCount` covers every reachable recursion depth. -/
def processSegmentAux (succeeds : Nat → Bool) : Nat → Nat → ExtractionAttempts
  | 0, _ => ⟨0, [], false⟩
  | budget + 1, retryCount =>
    if succeeds retryCount then ⟨1, [], true⟩
    else if retryCount < 3 then
      let r := processSegmentAux succeeds budget (retryCount + 1)
      ⟨r.attempts + 1, 2000 * (retryCount + 1) :: r.delaysMs, r.ok⟩
    else ⟨1, [], false⟩

def processSegment (succeeds : Nat → Bool) (retryCount : Nat) : ExtractionAttempts :=
  processSegmentAux succeeds (4 - retryCount) retryCount

/-- Stand-in for the message of the error propagated out of `processSegment`
(the source attaches the yt-dlp error text). -/
def extractionErrorMsg : String := "yt-dlp processing error"

/-- The `for` loop of `processSegments`: before each attempt set
`currentSegment := i + 1` and `progress := round(100 * i / n)`; on exhausted
retries mark the job failed and stop; after the last segment mark it
completed. -/
def segmentsLoop (succeeds : Nat → Nat → Bool) (progressId : String) (n : Nat)
    (endNow : Nat) : ProgressStore → Nat → List VideoSegment → ProgressStore
  | m, _, [] =>
    updateProgress m progressId (fun p =>
      { p with status := .completed, progress := 100, endTime := some endNow })
  | m, i, _ :: rest =>
    let m1 := updateProgress m progressId (fun p =>
      { p with
        currentSegment := some (i + 1)
        progress := jsRound (qmul (qdiv (i : ℚ) (n : ℚ)) 100) })
    if (processSegment (succeeds i) 0).ok then
      segmentsLoop succeeds progressId n endNow m1 (i + 1) rest
    else
      updateProgress m1 progressId (fun p =>
        { p with status := .failed, error := some extractionErrorMsg })

/-- `processSegments(videoId, segments)`: register a `pending` record under
the job key `videoId + "_" + now`, create the output directories (failure is
fatal to the job), switch to `processing`, then run the loop.  `succeeds i a`
tells whether extraction attempt `a` for segment index `i` succeeds. -/
def processSegments (succeeds : Nat → Nat → Bool) (dirsOk : Bool) (videoId : String)
    (segments : List VideoSegment) (now : Nat) (m : ProgressStore) : ProgressStore :=
  let progressId := videoId ++ "_" ++ toString now
  let m1 := mapSet m progressId
    ⟨videoId, .pending, 0, none, some segments.length, none, some now, none⟩
  if dirsOk then
    let m2 := updateProgress m1 progressId (fun p => { p with status := .processing })
    segmentsLoop succeeds progressId segments.length now m2 0 segments
  else
    updateProgress m1 progressId (fun p =>
      { p with status := .failed, error := some "Failed to create directories" })

end VideoProcessingService

/-! ## Pipeline facade (`VideoService`) -/

namespace VideoService

structure VideoMetadata where
  title : String
  duration : ℚ
  thumbnail : String
deriving DecidableEq

structure VideoProcessingRequest where
  videoUrl : String
  segmentDuration : Option ℚ
  includeTranslation : Option Bool

structure VideoData where
  videoId : String
  title : String
  duration : ℚ
  segments : List VideoSegment
  captions : String
  thumbnail : String
deriving DecidableEq

structure VideoProcessingResponse where
  success : Bool
  data : Option VideoData
  error : Option String
deriving DecidableEq

/-- The capture class `[^&\n?#]` of the `extractVideoId` patterns. -/
def stopChars : List Char := ['&', '\n', '?', '#']

/-- Match a literal alternative followed by `([^&\n?#]+)` at the head. -/
def capAfter (pre : List Char) (cs : List Char) : Option String :=
  if pre.isPrefixOf cs then
    let cap := (cs.drop pre.length).takeWhile (fun c => !(stopChars.contains c))
    if cap = [] then none else some cap.asString
  else none

/-- Leftmost match over a list of literal alternatives (tried in order at
each position, as the regex alternation does). -/
def scanAlts (alts : List (List Char)) : List Char → Option String
  | [] => none
  | c :: rest =>
    match alts.findSome? (fun a => capAfter a (c :: rest)) with
    | some r => some r
    | none => scanAlts alts rest

/-- `youtube\.com\/watch\?.*v=([^&\n?#]+)` anchored at the head: the greedy
`.*` cannot cross a line terminator, and backtracking selects the *last*
`v=` (within the newline-free span) whose capture is non-empty. -/
def p3Here (cs : List Char) : Option String :=
  let pre := "youtube.com/watch?".toList
  if pre.isPrefixOf cs then
    let region := cs.drop pre.length
    let span := region.takeWhile (fun c => !(c = '\n' || c = '\r'))
    (List.range (span.length + 1)).reverse.findSome? (fun j =>
      if "v=".toList.isPrefixOf (region.drop j) then
        let cap := (region.drop (j + 2)).takeWhile (fun c => !(stopChars.contains c))
        if cap = [] then none else some cap.asString
      else none)
  else none

def scanP3 : List Char → Option String
  | [] => none
  | c :: rest =>
    match p3Here (c :: rest) with
    | some r => some r
    | none => scanP3 rest

/-- `VideoService.extractVideoId`: the three patterns tried in order. -/
def extractVideoId (url : String) : Option String :=
  let cs := url.toList
  match scanAlts ["youtube.com/watch?v=".toList, "youtu.be/".toList,
      "youtube.com/embed/".toList] cs with
  | some r => some r
  | none =>
    match scanAlts ["youtube.com/v/".toList] cs with
    | some r => some r
    | none => scanP3 cs

/-- `process.env.BACKEND_URL || 'http://localhost:3001'` default. -/
def baseUrl : String := "http://localhost:3001"

/-- JS `v || 8` on a number: `0` (and `NaN`, not representable here) is
falsy. -/
def jsOrNum (v : Option ℚ) (d : ℚ) : ℚ :=
  match v with
  | none => d
  | some x => if x = 0 then d else x

/-- `VideoService.processVideo`.  The external collaborators are parameters:
`getVideoMetadata` / `extractCaptions` (YouTubeService), `translate`
(TranslationService, per-segment, failures caught and replaced with
`"[Translation failed]"`), and the extraction success predicate plus
directory-creation flag threaded to `VideoProcessingService.processSegments`.
`toString` on a rational stands in for JS number formatting inside the
artifact URLs (no theorem below inspects a URL). -/
def processVideo (getVideoMetadata : String → Except String VideoMetadata)
    (extractCaptions : String → Except String String)
    (translate : String → Except String String)
    (extractionSucceeds : Nat → Nat → Bool) (dirsOk : Bool)
    (request : VideoProcessingRequest) (now : Nat) (store : ProgressStore) :
    VideoProcessingResponse × ProgressStore :=
  match extractVideoId request.videoUrl with
  | none => (⟨false, none, some "Invalid YouTube URL"⟩, store)
  | some videoId =>
    match getVideoMetadata videoId with
    | .error e => (⟨false, none, some e⟩, store)
    | .ok metadata =>
      match extractCaptions videoId with
      | .error e => (⟨false, none, some e⟩, store)
      | .ok captions =>
        let captionData := CaptionProcessor.parseCaptions captions
        let segments := CaptionProcessor.createSegments captionData
          ⟨jsOrNum request.segmentDuration 8, 1, none, none, none, none⟩
        let segments :=
          if request.includeTranslation = some true then
            segments.map (fun s =>
              { s with translation :=
                  match translate s.text with
                  | .ok t => t
                  | .error _ => "[Translation failed]" })
          else segments
        let store' := VideoProcessingService.processSegments extractionSucceeds dirsOk
          videoId segments now store
        let segments := segments.map (fun s =>
          { s with
            audioUrl := baseUrl ++ "/processed/audio/" ++ videoId ++ "_" ++
              toString s.startTime ++ "_" ++ toString s.endTime ++ ".mp3"
            videoUrl := baseUrl ++ "/processed/video/" ++ videoId ++ "_" ++
              toString s.startTime ++ "_" ++ toString s.endTime ++ ".mp4" })
        (⟨true, some ⟨videoId, metadata.title, metadata.duration, segments,
            String.intercalate " " (captionData.map (·.text)), metadata.thumbnail⟩,
          none⟩, store')

end VideoService

/-! ## Concrete instances used by the claim theorems -/

/-- The default segmentation options: `segmentDuration = 8`, `overlap = 1`,
and the optional fields left to their destructuring defaults
(`minSegmentDuration = 3`, `maxSegmentDuration = 15`,
`preferSentenceBoundaries = true`, `maxWordsPerSegment = 20`). -/
def defaultOptions : SegmentationOptions := ⟨8, 1, none, none, none, none⟩

def c1Captions : List CaptionData :=
  [⟨0, 5, "Ciao, come stai?"⟩, ⟨5, 10, "Sono molto felice di vederti oggi."⟩]

def c1Seg1 : VideoSegment :=
  ⟨"1", 0, 8, "Ciao, come stai? Sono molto felice di vederti oggi.", "", "", ""⟩

def c1Seg2 : VideoSegment :=
  ⟨"2", 7, 10, "Sono molto felice di vederti oggi.", "", "", ""⟩

/-- A ten-word sentence. -/
def s10 : String := "uno due tre quattro cinque sei sette otto nove dieci"

/-- Four ten-word sentences (40 words). -/
def c9Text : String := s10 ++ ". " ++ s10 ++ ". " ++ s10 ++ ". " ++ s10 ++ "."

/-- The first two of the four sentences, joined the way the truncation loop
joins them. -/
def c9TwoSentences : String := s10 ++ ". " ++ s10

def c9Captions : List CaptionData := [⟨0, 8, c9Text⟩]

/-- An arrow-style payload whose first block is the non-speech annotation
`[Music]`. -/
def srtMusic : String :=
  "1\n00:00:00,000 --> 00:00:02,000\n[Music]\n\n2\n00:00:02,000 --> 00:00:04,000\nCiao amici"

/-- The entry the arrow-style parser emits for the `[Music]` block. -/
def srtMusicEntry : CaptionData := ⟨0, 2, "[Music]"⟩

/-- An arrow-style payload with a syntactically invalid time-range line in
the middle block. -/
def srtMixed : String :=
  "1\n00:00:00,000 --> 00:00:02,000\nPrima riga\n\n2\n00:00:0,00 --> 00:00:03,000\nCattivo\n\n3\n00:00:06,000 --> 00:00:08,000\nBene"

/-- Progress record of an older, completed job for video `"v"`. -/
def c7p1 : ProcessingProgress := ⟨"v", .completed, 100, none, some 2, none, some 1, some 1⟩

/-- Progress record of a newer, still-running job for the same video. -/
def c7p2 : ProcessingProgress := ⟨"v", .processing, 50, some 1, some 2, none, some 2, none⟩

/-- A segment whose text hides a bracketed span behind a newline: the first
cleanup pass cannot remove `[a\nb]` (the lazy bracket match cannot cross a
line terminator) but collapses the newline to a space, so a second pass can. -/
def sC6 : VideoSegment := ⟨"1", 0, 1, "ciao [a\nb] ciao", "", "", ""⟩

/-- `optimizeSegments [sC6]` head: text half-cleaned, placeholder
translation; scores 0.7 (duration and formatting deductions). -/
def sC6A : VideoSegment := ⟨"1", 0, 1, "ciao [a b] ciao", "[Translation needed]", "", ""⟩

/-- `optimizeSegments [sC6A]` head: the re-cleaning removes `[a b]`, dropping
the word count to 2; scores 0.5. -/
def sC6B : VideoSegment := ⟨"1", 0, 1, "ciao ciao", "[Translation needed]", "", ""⟩

/-- A segment whose text is fixed by `cleanText`, used to witness the
amended quality-monotonicity claim. -/
def c6Witness : VideoSegment := ⟨"w", 0, 1, "ciao", "", "", ""⟩

def c3Request : VideoService.VideoProcessingRequest :=
  ⟨"https://youtu.be/abc", none, some true⟩

def c3Meta : VideoService.VideoMetadata := ⟨"T", 30, "th"⟩

/-! ## Arithmetic bridge lemmas -/

theorem qadd_eq (a b : ℚ) : qadd a b = a + b := by
  rw [qadd, Rat.mkRat_eq_divInt, Rat.divInt_eq_div]
  have ha : ((a.den : ℚ)) ≠ 0 := by exact_mod_cast a.den_ne_zero
  have hb : ((b.den : ℚ)) ≠ 0 := by exact_mod_cast b.den_ne_zero
  conv_rhs => rw [← Rat.num_div_den a, ← Rat.num_div_den b]
  push_cast
  field_simp

theorem qsub_eq (a b : ℚ) : qsub a b = a - b := by
  rw [qsub, qneg, qadd_eq]
  ring

theorem qmul_eq (a b : ℚ) : qmul a b = a * b := by
  rw [qmul, Rat.mkRat_eq_divInt, Rat.divInt_eq_div]
  have ha : ((a.den : ℚ)) ≠ 0 := by exact_mod_cast a.den_ne_zero
  have hb : ((b.den : ℚ)) ≠ 0 := by exact_mod_cast b.den_ne_zero
  conv_rhs => rw [← Rat.num_div_den a, ← Rat.num_div_den b]
  push_cast
  field_simp

theorem qdiv_eq (a b : ℚ) : qdiv a b = a / b := by
  rw [qdiv]
  by_cases hb0 : b = 0
  · subst hb0
    norm_num [Rat.mkRat_eq_divInt]
  · have hbn : b.num ≠ 0 := Rat.num_ne_zero.mpr hb0
    have ha : ((a.den : ℚ)) ≠ 0 := by exact_mod_cast a.den_ne_zero
    have hbd : ((b.den : ℚ)) ≠ 0 := by exact_mod_cast b.den_ne_zero
    have hbq : ((b.num : ℚ)) ≠ 0 := by exact_mod_cast hbn
    split_ifs with h
    · have habs : ((b.num.natAbs : ℤ)) = -b.num :=
        Int.ofNat_natAbs_of_nonpos (le_of_lt h)
      rw [Rat.mkRat_eq_divInt, Rat.divInt_eq_div]
      conv_rhs => rw [← Rat.num_div_den a, ← Rat.num_div_den b]
      push_cast [habs]
      field_simp
    · have habs : ((b.num.natAbs : ℤ)) = b.num := Int.natAbs_of_nonneg (not_lt.mp h)
      rw [Rat.mkRat_eq_divInt, Rat.divInt_eq_div]
      conv_rhs => rw [← Rat.num_div_den a, ← Rat.num_div_den b]
      push_cast [habs]
      field_simp

theorem qdiv_zero (b : ℚ) : qdiv 0 b = 0 := by
  rw [qdiv_eq]
  exact zero_div b

theorem qmul_zero (b : ℚ) : qmul 0 b = 0 := by
  rw [qmul_eq]
  exact zero_mul b

theorem jsRound_zero : jsRound 0 = 0 := by decide

/-! ## C1 — overlap example -/

/-- C1, counterexample.  On the two example entries with the default options,
segment building does *not* return the single `[0,10)` segment the claim
describes: it emits two segments. -/
theorem c1_counterexample :
    CaptionProcessor.createSegments c1Captions defaultOptions ≠
      [⟨"1", 0, 10, "Ciao, come stai? Sono molto felice di vederti oggi.", "", "", ""⟩] ∧
    (CaptionProcessor.createSegments c1Captions defaultOptions).length = 2 := by
  decide

/-- C1, amended.  The first window `[0,8)` overlaps both entries and is
clipped to `[0,8]` with the merged text; the clock advances to 7
(`segmentDuration - overlap`), and the second window yields `[7,10]` with the
second entry's text. -/
theorem c1_two_segments :
    CaptionProcessor.createSegments c1Captions defaultOptions = [c1Seg1, c1Seg2] := by
  decide

/-! ## C9 — sentence-boundary truncation -/

/-- C9.  A single caption holding 40 words in four ten-word sentences, with
`maxWordsPerSegment = 20` and `preferSentenceBoundaries = true`, yields one
segment whose text is exactly the first two sentences (20 words, no
mid-sentence cut). -/
theorem c9_sentence_truncation :
    (jsSplitWs c9Text).length = 40 ∧
    CaptionProcessor.createSegments c9Captions defaultOptions =
      [⟨"1", 0, 8, c9TwoSentences, "", "", ""⟩] ∧
    c9TwoSentences = s10 ++ ". " ++ s10 ∧
    (jsSplitWs c9TwoSentences).length ≤ 20 := by
  decide

/-! ## C4 — duration floor -/

theorem buildLoop_floor (fuel : Nat) :
    ∀ (sorted : List CaptionData) (maxEnd dur ovl minDur : ℚ) (maxWords : Nat)
      (preferSB : Bool) (t : ℚ) (sid : Nat) (s : VideoSegment),
      s ∈ CaptionProcessor.buildLoop sorted maxEnd dur ovl minDur maxWords preferSB fuel t sid →
      minDur ≤ s.endTime - s.startTime := by
  induction fuel with
  | zero =>
    intro sorted maxEnd dur ovl minDur maxWords preferSB t sid s hs
    simp [CaptionProcessor.buildLoop] at hs
  | succ n ih =>
    intro sorted maxEnd dur ovl minDur maxWords preferSB t sid s hs
    simp only [CaptionProcessor.buildLoop] at hs
    by_cases h1 : t < maxEnd
    · rw [if_pos h1] at hs
      rcases hl : sorted.filter
          (fun c => decide (c.start < min (qadd t dur) maxEnd) && decide (t < c.stop)) with
        _ | ⟨first, restCaps⟩
      · rw [hl] at hs
        exact ih _ _ _ _ _ _ _ _ _ _ hs
      · rw [hl] at hs
        simp only at hs
        split_ifs at hs with h2
        · rcases List.mem_cons.mp hs with h3 | h3
          · subst h3
            rw [qsub_eq] at h2
            exact h2
          · exact ih _ _ _ _ _ _ _ _ _ _ h3
        · exact ih _ _ _ _ _ _ _ _ _ _ hs
    · rw [if_neg h1] at hs
      simp at hs

/-- C4.  Every segment emitted by segment building meets the duration floor
`minSegmentDuration` (resolved to its default 3 when absent): the emission
guard compares exactly `actualEnd - actualStart` against the floor, so a
window whose clipped bounds fall below it produces no segment at all.  The
claim's precondition `overlap < segmentDuration` is stated but not needed. -/
theorem c4_duration_floor (captions : List CaptionData) (options : SegmentationOptions)
    (hov : options.overlap < options.segmentDuration) :
    ∀ s ∈ CaptionProcessor.createSegments captions options,
      options.minSegmentDuration.getD 3 ≤ s.endTime - s.startTime := by
  intro s hs
  cases captions with
  | nil => simp [CaptionProcessor.createSegments] at hs
  | cons c cr =>
    simp only [CaptionProcessor.createSegments] at hs
    exact buildLoop_floor _ _ _ _ _ _ _ _ _ _ _ hs

/-- C4, witness: the floor theorem applied to the first segment of the C1
run. -/
theorem c4_duration_floor_witness :
    defaultOptions.minSegmentDuration.getD 3 ≤ c1Seg1.endTime - c1Seg1.startTime :=
  c4_duration_floor c1Captions defaultOptions (by decide) c1Seg1 (by decide)

/-! ## C5 — merge idempotence -/

theorem mergeLoop_cons (l : List VideoSegment) (c : VideoSegment) :
    ∃ d t, CaptionProcessor.mergeLoop c l = d :: t ∧ d.startTime = c.startTime := by
  induction l generalizing c with
  | nil => exact ⟨c, [], rfl, rfl⟩
  | cons next rest ih =>
    simp only [CaptionProcessor.mergeLoop]
    split_ifs with h
    · obtain ⟨d, t, he, hs⟩ := ih _
      exact ⟨d, t, he, hs⟩
    · exact ⟨c, _, rfl, rfl⟩

theorem mergeLoop_chain' (l : List VideoSegment) (c : VideoSegment) :
    List.Chain' (fun a b => 2 < b.startTime - a.endTime) (CaptionProcessor.mergeLoop c l) := by
  induction l generalizing c with
  | nil => simp [CaptionProcessor.mergeLoop]
  | cons next rest ih =>
    simp only [CaptionProcessor.mergeLoop]
    split_ifs with h
    · exact ih _
    · obtain ⟨d, t, he, hs⟩ := mergeLoop_cons rest next
      rw [he, List.chain'_cons]
      refine ⟨?_, he ▸ ih next⟩
      rw [hs]
      rw [qsub_eq] at h
      exact not_le.mp h

theorem mergeLoop_of_chain (l : List VideoSegment) (c : VideoSegment)
    (hhead : ∀ d ∈ l.head?, 2 < d.startTime - c.endTime)
    (hchain : List.Chain' (fun a b => 2 < b.startTime - a.endTime) l) :
    CaptionProcessor.mergeLoop c l = c :: l := by
  induction l generalizing c with
  | nil => rfl
  | cons next rest ih =>
    have hgap : ¬ (qsub next.startTime c.endTime ≤ 2) := by
      rw [qsub_eq]
      exact not_le.mpr (hhead next rfl)
    simp only [CaptionProcessor.mergeLoop, if_neg hgap]
    congr 1
    exact ih next (List.chain'_cons'.mp hchain).1 (List.chain'_cons'.mp hchain).2

/-- C5.  `mergeAdjacentSegments` is idempotent: a single pass leaves every
adjacent pair with a gap above the 2-second merge threshold (the accumulator
keeps its start time and is flushed exactly when the gap test fails), so a
second pass merges nothing. -/
theorem c5_mergeAdjacent_idempotent (segments : List VideoSegment) :
    CaptionProcessor.mergeAdjacentSegments (CaptionProcessor.mergeAdjacentSegments segments) =
      CaptionProcessor.mergeAdjacentSegments segments := by
  cases segments with
  | nil => rfl
  | cons s rest =>
    simp only [CaptionProcessor.mergeAdjacentSegments]
    obtain ⟨d, t, he, -⟩ := mergeLoop_cons rest s
    have hchain := mergeLoop_chain' rest s
    rw [he] at hchain ⊢
    exact mergeLoop_of_chain t d (List.chain'_cons'.mp hchain).1 (List.chain'_cons'.mp hchain).2

/-! ## C6 — quality monotonicity of optimize -/

set_option maxRecDepth 4096 in
/-- C6, counterexample.  For `s = sC6` (text `"ciao [a\nb] ciao"`, no
translation, 1-second duration) the claim's inequality fails: the first
optimize pass collapses the newline, creating a removable `[a b]` span; the
second pass removes it, dropping the word count below 3, and the assessed
score falls from 0.7 to 0.5. -/
theorem c6_counterexample :
    ¬ ((assessSegmentQuality ((optimizeSegments [(optimizeSegments [sC6]).headI]).headI)).score ≥
        (assessSegmentQuality ((optimizeSegments [sC6]).headI)).score) ∧
    optimizeSegments [sC6] = [sC6A] ∧
    optimizeSegments [sC6A] = [sC6B] ∧
    (assessSegmentQuality sC6B).score < (assessSegmentQuality sC6A).score := by
  decide

theorem assess_translation_mono (s : VideoSegment) (tr : String) (htr : tr ≠ "") :
    (assessSegmentQuality s).score ≤
      (assessSegmentQuality { s with translation := tr }).score := by
  simp only [assessSegmentQuality]
  rw [if_neg htr]
  split_ifs <;>
    simp [qsub_eq, Rat.mkRat_eq_divInt, Rat.divInt_eq_div] <;>
    norm_num [le_max_iff, max_le_iff]

/-- C6, amended.  Re-applying `optimizeSegments` never decreases the assessed
score *provided the segment's text is a fixed point of `cleanText`* (true of
any text the cleanup has stabilised on, but not of every optimize output, as
`c6_counterexample` shows): the only repairs then possible leave the text
unchanged and can only add a non-empty translation, which removes a 0.2
deduction. -/
theorem c6_score_monotone_of_cleanText_fixed (s : VideoSegment)
    (hclean : cleanText s.text = s.text) :
    (assessSegmentQuality ((optimizeSegments [s]).headI)).score ≥
      (assessSegmentQuality s).score := by
  have hopt : (optimizeSegments [s]).headI = optimizeSegment s := rfl
  rw [hopt]
  simp only [optimizeSegment]
  have htr : ("[Translation needed]" : String) ≠ "" := by decide
  split_ifs with h1 h2 h3 h3
  · exact le_refl _
  · rw [hclean]
    exact assess_translation_mono s _ htr
  · exact assess_translation_mono s _ htr
  · rw [hclean]
  · exact le_refl _

/-- C6, witness: the amended theorem applied to a clean-text segment. -/
theorem c6_score_monotone_witness :
    (assessSegmentQuality ((optimizeSegments [c6Witness]).headI)).score ≥
      (assessSegmentQuality c6Witness).score :=
  c6_score_monotone_of_cleanText_fixed c6Witness (by decide)

/-! ## C10 — optimize frame condition -/

theorem frameOf_optimizeSegment (s : VideoSegment) :
    frameOf (optimizeSegment s) = frameOf s := by
  simp only [optimizeSegment, frameOf]
  split_ifs <;> rfl

/-- C10.  `optimizeSegments` preserves list length and, position by position,
the segment's `id`, `startTime`, `endTime`, `audioUrl` and `videoUrl`; only
`text` and `translation` can change. -/
theorem c10_optimize_frame (segs : List VideoSegment) :
    (optimizeSegments segs).length = segs.length ∧
    (optimizeSegments segs).map frameOf = segs.map frameOf := by
  refine ⟨by simp [optimizeSegments], ?_⟩
  simp only [optimizeSegments, List.map_map]
  exact List.map_congr_left fun a _ => frameOf_optimizeSegment a

/-! ## C2 — retry bound -/

/-- C2, counterexample.  With an extraction stub failing on every attempt,
`processSegment` invokes the tool 4 times (the initial attempt plus
`maxRetries = 3` retries), not 3, before giving up. -/
theorem c2_counterexample :
    (VideoProcessingService.processSegment (fun _ => false) 0).attempts ≠ 3 ∧
    VideoProcessingService.processSegment (fun _ => false) 0 =
      ⟨4, [2000, 4000, 6000], false⟩ := by
  decide

/-- C2, amended.  With an always-failing extraction stub the orchestrator
attempts extraction exactly 4 times for the first segment (1 initial + 3
retries), sleeping `attempt * 2` seconds (2000, 4000, 6000 ms) between
attempts, after which the job's progress record has status `failed` and
`currentSegment` equal to the 1-based index of the failing segment (here 1,
the first). -/
theorem c2_retry_bound (vid : String) (now : Nat) (s : VideoSegment)
    (rest : List VideoSegment) :
    VideoProcessingService.processSegment (fun _ => false) 0 =
      ⟨4, [2000, 4000, 6000], false⟩ ∧
    VideoProcessingService.getProgress
        (VideoProcessingService.processSegments (fun _ _ => false) true vid (s :: rest) now [])
        vid =
      some ⟨vid, .failed, 0, some 1, some (rest.length + 1),
        some VideoProcessingService.extractionErrorMsg, some now, none⟩ := by
  refine ⟨rfl, ?_⟩
  simp only [VideoProcessingService.processSegments, VideoProcessingService.mapSet,
    VideoProcessingService.updateProgress, VideoProcessingService.segmentsLoop,
    VideoProcessingService.getProgress, List.any_nil, List.find?, List.length_cons,
    Bool.false_eq_true, if_false, List.nil_append, beq_self_eq_true, List.any_cons,
    Bool.or_self, if_true, List.map_cons, List.map_nil, Nat.cast_zero, qdiv_zero,
    qmul_zero, jsRound_zero, VideoProcessingService.processSegment,
    VideoProcessingService.processSegmentAux, Option.map_some]
  simp

/-! ## C3 — extraction failures and the facade result -/

/-- C3, counterexample.  A run in which source resolution, metadata and
captions all succeed but every extraction attempt fails: the job is marked
`failed` in the progress store, yet `processVideo` still returns
`success = true` — the `processSegments` catch absorbs the extraction error
instead of propagating it to the facade. -/
theorem c3_counterexample :
    (VideoService.processVideo (fun _ => .ok c3Meta) (fun _ => .ok "Ciao come va bene oggi")
        (fun _ => .error "boom") (fun _ _ => false) true c3Request 0 []).1.success = true ∧
    VideoProcessingService.getProgress
        (VideoService.processVideo (fun _ => .ok c3Meta) (fun _ => .ok "Ciao come va bene oggi")
          (fun _ => .error "boom") (fun _ _ => false) true c3Request 0 []).2 "abc" =
      some ⟨"abc", .failed, 0, some 1, some 1,
        some VideoProcessingService.extractionErrorMsg, some 0, none⟩ := by
  decide

/-- C3, amended.  Whenever source resolution, the metadata fetch and the
caption fetch succeed, `processVideo` returns a success result — regardless
of the extraction outcomes (exhausted retries only mark the job `failed` in
the progress store) and regardless of translation failures (each is absorbed
per segment by substituting the `"[Translation failed]"` marker). -/
theorem c3_extraction_nonfatal (getMeta : String → Except String VideoService.VideoMetadata)
    (extractCaptions translate : String → Except String String)
    (esucc : Nat → Nat → Bool) (dirsOk : Bool)
    (request : VideoService.VideoProcessingRequest) (now : Nat) (store : ProgressStore)
    (vid : String) (md : VideoService.VideoMetadata) (capText : String)
    (hid : VideoService.extractVideoId request.videoUrl = some vid)
    (hmeta : getMeta vid = .ok md)
    (hcaps : extractCaptions vid = .ok capText) :
    (VideoService.processVideo getMeta extractCaptions translate esucc dirsOk
        request now store).1.success = true ∧
    (VideoService.processVideo getMeta extractCaptions translate esucc dirsOk
        request now store).1.error = none := by
  simp [VideoService.processVideo, hid, hmeta, hcaps]

/-- C3, witness: the amended theorem at the concrete counterexample inputs. -/
theorem c3_extraction_nonfatal_witness :
    (VideoService.processVideo (fun _ => .ok c3Meta) (fun _ => .ok "Ciao come va bene oggi")
        (fun _ => .error "boom") (fun _ _ => false) true c3Request 0 []).1.success = true ∧
    (VideoService.processVideo (fun _ => .ok c3Meta) (fun _ => .ok "Ciao come va bene oggi")
        (fun _ => .error "boom") (fun _ _ => false) true c3Request 0 []).1.error = none :=
  c3_extraction_nonfatal _ _ _ _ _ c3Request 0 [] "abc" c3Meta "Ciao come va bene oggi"
    (by decide) rfl rfl

/-! ## C7 — progress lookup across jobs -/

/-- C7.  `getProgress` returns the record of the *earliest-inserted* job for
a video, not the most recently written one: with the older completed job
`c7p1` inserted before the newer running job `c7p2` (same `videoId = "v"`),
the lookup returns `c7p1`.  The not-found case does return `none`. -/
theorem c7_progress_oldest_job :
    VideoProcessingService.getProgress
        (VideoProcessingService.mapSet
          (VideoProcessingService.mapSet [] "v_1" c7p1) "v_2" c7p2) "v" = some c7p1 ∧
    c7p1 ≠ c7p2 ∧
    VideoProcessingService.getProgress [] "v" = none := by
  decide

/-! ## C8 — parser robustness -/

theorem srtBlockEntry_sound (b : String) (e : CaptionData)
    (h : CaptionProcessor.srtBlockEntry b = some e) :
    0 ≤ e.start ∧ e.start < e.stop ∧ e.text ≠ "" := by
  simp only [CaptionProcessor.srtBlockEntry] at h
  split at h
  · split at h
    · split at h
      · split at h
        · rename_i hcond
          obtain ⟨ht, h0, hlt⟩ := hcond
          cases h
          exact ⟨h0, hlt, ht⟩
        · exact absurd h (by simp)
      · exact absurd h (by simp)
    · exact absurd h (by simp)
  · exact absurd h (by simp)

theorem ttmlScanGo_sound (fuel : Nat) :
    ∀ (cs : List Char) (e : CaptionData), e ∈ CaptionProcessor.ttmlScanGo fuel cs →
      0 ≤ e.start ∧ e.start < e.stop ∧ e.text ≠ "" := by
  induction fuel with
  | zero =>
    intro cs e he
    simp [CaptionProcessor.ttmlScanGo] at he
  | succ n ih =>
    intro cs e he
    match cs with
    | [] => simp [CaptionProcessor.ttmlScanGo] at he
    | c :: rest =>
      simp only [CaptionProcessor.ttmlScanGo] at he
      split at he
      · split at he
        · split at he
          · rename_i hcond
            rcases List.mem_cons.mp he with h1 | h1
            · subst h1
              obtain ⟨ht, h0, hlt⟩ := hcond
              exact ⟨h0, hlt, ht⟩
            · exact ih _ _ h1
          · exact ih _ _ he
        · exact ih _ _ he
      · exact ih _ _ he

/-- C8, counterexample.  The arrow-style parser does *not* strip markup,
entity escapes or `[bracketed]` annotations before its emptiness test — it
only trims — so a block whose text is `"[Music]"` (empty after the stripping
the claim describes, as `cleanText` shows) is still emitted. -/
theorem c8_counterexample :
    CaptionProcessor.parseSRT srtMusic = [srtMusicEntry, ⟨2, 4, "Ciao amici"⟩] ∧
    CaptionProcessor.cleanText srtMusicEntry.text = "" := by
  decide

/-- C8, amended.  Both timed parsers are total and per-entry sound: every
emitted entry has `0 ≤ start < end` and non-empty text, where the
paragraph-tag parser tests the text after full stripping (its emitted text
is the cleaned text) while the arrow-style parser tests it only after
trimming; a block that fails its parser's test (malformed or reversed time
range, empty text) is skipped silently while the remaining valid blocks are
still emitted, as the `srtMixed` payload shows. -/
theorem c8_parser_soundness :
    (∀ (input : String), ∀ e ∈ CaptionProcessor.parseTTML input,
      0 ≤ e.start ∧ e.start < e.stop ∧ e.text ≠ "") ∧
    (∀ (input : String), ∀ e ∈ CaptionProcessor.parseSRT input,
      0 ≤ e.start ∧ e.start < e.stop ∧ e.text ≠ "") ∧
    CaptionProcessor.parseSRT srtMixed = [⟨0, 2, "Prima riga"⟩, ⟨6, 8, "Bene"⟩] := by
  refine ⟨?_, ?_, by decide⟩
  · intro input e he
    exact ttmlScanGo_sound _ _ _ he
  · intro input e he
    simp only [CaptionProcessor.parseSRT, List.mem_filterMap] at he
    obtain ⟨b, -, hb⟩ := he
    exact srtBlockEntry_sound b e hb

/-- C8, witness: the soundness theorem applied to the `[Music]` entry of the
`srtMusic` payload. -/
theorem c8_parser_soundness_witness :
    0 ≤ srtMusicEntry.start ∧ srtMusicEntry.start < srtMusicEntry.stop ∧
      srtMusicEntry.text ≠ "" :=
  c8_parser_soundness.2.1 srtMusic srtMusicEntry (by decide)
